import Mathlib

/-!
Verification of the SeasonalTool collection-tracker engine (src/script.js).

The data model and every operation below are shallow embeddings of the
JavaScript source: entity records become structures, the global
`activeFilters` object becomes an explicit `FilterState` argument,
JavaScript floating-point arithmetic is modelled over `ℚ`, and the
fallible paths (`undefined` returns, thrown exceptions) become `Option`
and `Except` values.  Field values compared by `===` against filter
strings stay `String`; the closed enumerations declared by the data
model (rarity, variant type) become inductive types.
-/

namespace SeasonalTool

/-- Rarity enumeration of the data model (`Common`, `Rare`, `Legendary`,
`Ultra Beast`). -/
inductive Rarity where
  | common
  | rare
  | legendary
  | ultraBeast
deriving DecidableEq, Repr

/-- Variant-type enumeration (`Normal`, `Shiny`, `Dark`, `Mystic`,
`Metallic`, `Shadow`). -/
inductive VType where
  | normal
  | shiny
  | dark
  | mystic
  | metallic
  | shadow
deriving DecidableEq, Repr

/-- A cosmetic variant of an entity together with its caught flag. -/
structure Variant where
  type : VType
  caught : Bool
deriving DecidableEq, Repr

/-- One location record of an entity: `{place, time, type}` as compared by
`tripleFilter` (all three compared by string equality in the source). -/
structure LocationRecord where
  place : String
  time : String
  type : String
deriving DecidableEq, Repr

/-- An entity of the catalogue (`pokemonList` element). -/
structure Pokemon where
  id : Nat
  name : String
  rarity : Rarity
  previousForms : List Nat
  locations : List LocationRecord
  variants : List Variant
deriving DecidableEq, Repr

/-- The `activeFilters` global of the source, passed explicitly.  The empty
string means "unconstrained", exactly as the source's truthiness tests. -/
structure FilterState where
  location : String
  time : String
  type : String
  variant : String
deriving DecidableEq, Repr

/-- One location record against the three field constraints: the body of the
`some` callback inside `tripleFilter` (script.js lines 125-134).  A field
constraint applies only when the filter string is non-empty (JS truthiness). -/
def recordMatches (f : FilterState) (loc : LocationRecord) : Bool :=
  (if f.location ≠ "" then loc.place == f.location else true) &&
  (if f.time ≠ "" then loc.time == f.time else true) &&
  (if f.type ≠ "" then loc.type == f.type else true)

/-- Function `tripleFilter` (script.js lines 124-135): an entity matches when at least
one of its location records satisfies all three field constraints. -/
def tripleFilter (f : FilterState) (p : Pokemon) : Bool :=
  p.locations.any (recordMatches f)

/-- Number of catalogue entities accepted by `tripleFilter` under the given
filters (the match count used by the display pipeline). -/
def matchCount (f : FilterState) (catalogue : List Pokemon) : Nat :=
  (catalogue.filter (tripleFilter f)).length

theorem recordMatches_iff (f : FilterState) (loc : LocationRecord) :
    recordMatches f loc = true ↔
      (f.location = "" ∨ loc.place = f.location) ∧
      (f.time = "" ∨ loc.time = f.time) ∧
      (f.type = "" ∨ loc.type = f.type) := by
  unfold recordMatches
  by_cases h1 : f.location = "" <;> by_cases h2 : f.time = "" <;>
    by_cases h3 : f.type = "" <;>
    simp [h1, h2, h3, and_assoc]

/-- Claim **C2** — `tripleFilter` returns `true` exactly when some location record
of the entity simultaneously satisfies all three (possibly empty) field
constraints: `(location empty or equal)` and `(time empty or equal)` and
`(type empty or equal)`. -/
theorem tripleFilter_iff (f : FilterState) (p : Pokemon) :
    tripleFilter f p = true ↔
      ∃ loc ∈ p.locations,
        (f.location = "" ∨ loc.place = f.location) ∧
        (f.time = "" ∨ loc.time = f.time) ∧
        (f.type = "" ∨ loc.type = f.type) := by
  unfold tripleFilter
  rw [List.any_eq_true]
  constructor
  · rintro ⟨loc, hmem, hrec⟩
    exact ⟨loc, hmem, (recordMatches_iff f loc).mp hrec⟩
  · rintro ⟨loc, hmem, hrec⟩
    exact ⟨loc, hmem, (recordMatches_iff f loc).mpr hrec⟩

theorem filter_length_mono {α : Type} (p q : α → Bool) (l : List α)
    (h : ∀ a ∈ l, p a = true → q a = true) :
    (l.filter p).length ≤ (l.filter q).length := by
  induction l with
  | nil => simp
  | cons a l ih =>
      have ht : ∀ b ∈ l, p b = true → q b = true := fun b hb => h b (by simp [hb])
      have hrec := ih ht
      by_cases hp : p a = true
      · have hq := h a (by simp) hp
        simp only [List.filter_cons, hp, hq, if_pos, List.length_cons]
        omega
      · simp only [List.filter_cons]
        rw [if_neg (by simpa using hp)]
        by_cases hq : q a = true
        · rw [if_pos hq]
          simp only [List.length_cons]
          omega
        · rw [if_neg (by simpa using hq)]
          exact hrec

theorem recordMatches_weaken_location (f : FilterState) (loc : LocationRecord)
    (h : recordMatches f loc = true) :
    recordMatches { f with location := "" } loc = true := by
  rw [recordMatches_iff] at h ⊢
  exact ⟨Or.inl rfl, h.2.1, h.2.2⟩

theorem recordMatches_weaken_time (f : FilterState) (loc : LocationRecord)
    (h : recordMatches f loc = true) :
    recordMatches { f with time := "" } loc = true := by
  rw [recordMatches_iff] at h ⊢
  exact ⟨h.1, Or.inl rfl, h.2.2⟩

theorem recordMatches_weaken_type (f : FilterState) (loc : LocationRecord)
    (h : recordMatches f loc = true) :
    recordMatches { f with type := "" } loc = true := by
  rw [recordMatches_iff] at h ⊢
  exact ⟨h.1, h.2.1, Or.inl rfl⟩

theorem tripleFilter_weaken {f g : FilterState}
    (hw : ∀ loc, recordMatches f loc = true → recordMatches g loc = true)
    (p : Pokemon) (h : tripleFilter f p = true) : tripleFilter g p = true := by
  unfold tripleFilter at h ⊢
  rw [List.any_eq_true] at h ⊢
  obtain ⟨loc, hmem, hrec⟩ := h
  exact ⟨loc, hmem, hw loc hrec⟩

/-- Claim **C8** — weakening any one filter field to empty never decreases the
number of catalogue entities accepted by `tripleFilter`: the match count is
monotone under dropping the location, the time, or the type constraint. -/
theorem matchCount_monotone (f : FilterState) (catalogue : List Pokemon) :
    matchCount f catalogue ≤ matchCount { f with location := "" } catalogue ∧
    matchCount f catalogue ≤ matchCount { f with time := "" } catalogue ∧
    matchCount f catalogue ≤ matchCount { f with type := "" } catalogue := by
  refine ⟨?_, ?_, ?_⟩ <;>
    exact filter_length_mono _ _ catalogue
      (fun p _ => tripleFilter_weaken
        (fun loc => by
          first
          | exact recordMatches_weaken_location f loc
          | exact recordMatches_weaken_time f loc
          | exact recordMatches_weaken_type f loc) p)

/-- Case-insensitive character comparison, for the `i` flag of the pattern
passed to `sortLocations`. -/
def charEqCI (a b : Char) : Bool :=
  a.toLower == b.toLower

/-- Test of the route pattern (the regular expression written as
slash, caret, `Route \d+`, dollar, slash-i in the callers): a
case-insensitive `Route ` followed by one or more digits, anchored at
both ends. -/
def routeRegexTest (s : String) : Bool :=
  let cs := s.data
  decide ((cs.take 6).length = 6) &&
  (List.zipWith charEqCI (cs.take 6) "Route ".data).all id &&
  !(cs.drop 6).isEmpty &&
  (cs.drop 6).all Char.isDigit

/-- Model of `parseInt(s.match(slash-d-plus-slash))`: numeric value of the first
maximal digit run of the string (used only on strings accepted by the
route pattern, where it is the route number). -/
def firstNumber (s : String) : Nat :=
  ((s.data.dropWhile (fun c => !c.isDigit)).takeWhile Char.isDigit).foldl
    (fun n c => n * 10 + (c.toNat - 48)) 0

/-- Function `sortLocations` (script.js lines 146-167) with the route pattern:
partition into pattern-matching and non-matching names, sort the matching
ones by their embedded number, sort the rest lexicographically, and
concatenate matching-first.  JavaScript `Array.prototype.sort` is stable,
so both sorts are modelled by the stable `insertionSort`. -/
def sortLocations (locations : List String) : List String :=
  let matching := locations.filter routeRegexTest
  let nonMatching := locations.filter (fun s => !routeRegexTest s)
  List.insertionSort (fun a b => firstNumber a ≤ firstNumber b) matching ++
    List.insertionSort (fun a b => a ≤ b) nonMatching

/-- Claim **C6** — on the three names `Route 3`, `Route 12`, `Pallet Town`, in each
of their six input orders, `sortLocations` with the route pattern returns
exactly `[Route 3, Route 12, Pallet Town]`: numerically ordered route names
first, alphabetically ordered other names after. -/
theorem sortLocations_scenario :
    sortLocations ["Route 3", "Route 12", "Pallet Town"] =
        ["Route 3", "Route 12", "Pallet Town"] ∧
    sortLocations ["Route 3", "Pallet Town", "Route 12"] =
        ["Route 3", "Route 12", "Pallet Town"] ∧
    sortLocations ["Route 12", "Route 3", "Pallet Town"] =
        ["Route 3", "Route 12", "Pallet Town"] ∧
    sortLocations ["Route 12", "Pallet Town", "Route 3"] =
        ["Route 3", "Route 12", "Pallet Town"] ∧
    sortLocations ["Pallet Town", "Route 3", "Route 12"] =
        ["Route 3", "Route 12", "Pallet Town"] ∧
    sortLocations ["Pallet Town", "Route 12", "Route 3"] =
        ["Route 3", "Route 12", "Pallet Town"] := by
  refine ⟨?_, ?_, ?_, ?_, ?_, ?_⟩ <;> rfl

/-- The evolutions found for a base form: every entity of the list whose
`previousForms` includes the base form's id, kept in catalogue order (the
`filter` producing `evoChain` in `getEvolutionRows` and `evoChains` in
`getDisplayList`). -/
def descendantsOf (catalogue : List Pokemon) (base : Pokemon) : List Pokemon :=
  catalogue.filter (fun p => p.previousForms.contains base.id)

/-- The evolution-line row built by `getEvolutionRows` (script.js lines
421-436) for one base form: the base form, then every evolution found in
the list, then `null` padding while the length is below 6.  The `while`
loop never removes elements, so a line longer than 6 stays longer. -/
def buildEvolutionLine (catalogue : List Pokemon) (base : Pokemon) :
    List (Option Pokemon) :=
  let line := some base :: (descendantsOf catalogue base).map some
  line ++ List.replicate (6 - line.length) none

/-- All evolution-line rows of `getEvolutionRows`: one per base form of the
list, in list order. -/
def getEvolutionLines (catalogue : List Pokemon) : List (List (Option Pokemon)) :=
  (catalogue.filter (fun p => p.previousForms.isEmpty)).map
    (buildEvolutionLine catalogue)

/-- A base form with six descendants in catalogue order: more than the five
the claim says survive truncation. -/
def wideBase : Pokemon :=
  { id := 1, name := "Base", rarity := .common, previousForms := [],
    locations := [], variants := [] }

def wideEvo (n : Nat) : Pokemon :=
  { id := n, name := "Evo", rarity := .common, previousForms := [1],
    locations := [], variants := [] }

def wideCatalogue : List Pokemon :=
  [wideBase, wideEvo 2, wideEvo 3, wideEvo 4, wideEvo 5, wideEvo 6, wideEvo 7]

/-- Claim **C1 counterexample** — on a catalogue whose base form has six
descendants, the evolution line has length 7, not 6: `getEvolutionRows`
never truncates to the first five descendants. -/
theorem buildEvolutionLine_not_always_six :
    ¬ (buildEvolutionLine wideCatalogue wideBase).length = 6 := by
  decide

/-- Claim **C1 (amended)** — for every base-form entity the evolution line has
length `max 6 (1 + number of descendants)` (so exactly 6 only when there
are at most 5 descendants), slot 0 is the base form and non-absent, every
descendant appears in the line (no truncation ever happens), and the slots
between the last descendant and index 6 are padded with absent values. -/
theorem buildEvolutionLine_spec (catalogue : List Pokemon) (base : Pokemon)
    (_h : base.previousForms = []) :
    (buildEvolutionLine catalogue base).length =
      max 6 ((descendantsOf catalogue base).length + 1) ∧
    (buildEvolutionLine catalogue base).head? = some (some base) ∧
    ((descendantsOf catalogue base).length ≤ 5 →
      (buildEvolutionLine catalogue base).length = 6) ∧
    (∀ p ∈ catalogue, p.previousForms.contains base.id = true →
      some p ∈ buildEvolutionLine catalogue base) ∧
    (∀ i, (descendantsOf catalogue base).length + 1 ≤ i → i < 6 →
      (buildEvolutionLine catalogue base)[i]? = some none) := by
  refine ⟨?_, ?_, ?_, ?_, ?_⟩
  · simp only [buildEvolutionLine, List.length_append, List.length_cons,
      List.length_map, List.length_replicate]
    omega
  · simp [buildEvolutionLine]
  · intro hd
    simp only [buildEvolutionLine, List.length_append, List.length_cons,
      List.length_map, List.length_replicate]
    omega
  · intro p hp hcont
    have hmem : p ∈ descendantsOf catalogue base :=
      List.mem_filter.mpr ⟨hp, hcont⟩
    exact List.mem_append_left _ (List.mem_cons_of_mem _ (List.mem_map_of_mem some hmem))
  · intro i hge hlt
    have hlen : (some base :: (descendantsOf catalogue base).map some).length ≤ i := by
      simp only [List.length_cons, List.length_map]
      omega
    simp only [buildEvolutionLine]
    rw [List.getElem?_append_right hlen]
    simp only [List.length_cons, List.length_map]
    rw [List.getElem?_replicate]
    rw [if_pos (by simp only [List.length_cons, List.length_map] at hlen; omega)]

/-- A concrete base-form entity with two descendants, for instantiating
`buildEvolutionLine_spec`. -/
def narrowCatalogue : List Pokemon :=
  [wideBase, wideEvo 2, wideEvo 3]

theorem buildEvolutionLine_spec_witness :
    wideBase.previousForms = [] ∧
    ((buildEvolutionLine narrowCatalogue wideBase).length =
        max 6 ((descendantsOf narrowCatalogue wideBase).length + 1) ∧
      (buildEvolutionLine narrowCatalogue wideBase).head? = some (some wideBase) ∧
      ((descendantsOf narrowCatalogue wideBase).length ≤ 5 →
        (buildEvolutionLine narrowCatalogue wideBase).length = 6) ∧
      (∀ p ∈ narrowCatalogue, p.previousForms.contains wideBase.id = true →
        some p ∈ buildEvolutionLine narrowCatalogue wideBase) ∧
      (∀ i, (descendantsOf narrowCatalogue wideBase).length + 1 ≤ i → i < 6 →
        (buildEvolutionLine narrowCatalogue wideBase)[i]? = some none)) :=
  ⟨by decide, buildEvolutionLine_spec narrowCatalogue wideBase (by decide)⟩

/-- Function `getFilteredLines` (script.js lines 384-389): the base forms of the
catalogue that pass `tripleFilter`. -/
def getFilteredLines (f : FilterState) (catalogue : List Pokemon) : List Pokemon :=
  (catalogue.filter (fun p => p.previousForms.isEmpty)).filter (tripleFilter f)

/-- Function `getDisplayList` (script.js lines 398-410): each filtered base form
followed by every entity of the catalogue whose `previousForms` includes its
id — with no filter applied to the evolutions. -/
def getDisplayList (catalogue : List Pokemon) (filteredLines : List Pokemon) :
    List Pokemon :=
  filteredLines.flatMap (fun base => base :: descendantsOf catalogue base)

/-- Claim **C7** — membership in the display list is exactly: being a
filter-matching base form, or being a catalogue entity designated as the
descendant of a filter-matching base form.  No condition on the
descendant's own location records appears: a descendant is included even
when none of its records satisfies the active filters. -/
theorem getDisplayList_mem (catalogue : List Pokemon) (f : FilterState)
    (p : Pokemon) :
    p ∈ getDisplayList catalogue (getFilteredLines f catalogue) ↔
      p ∈ getFilteredLines f catalogue ∨
      ∃ b ∈ getFilteredLines f catalogue,
        p ∈ catalogue ∧ p.previousForms.contains b.id = true := by
  unfold getDisplayList
  rw [List.mem_flatMap]
  constructor
  · rintro ⟨b, hb, hp⟩
    rcases List.mem_cons.mp hp with heq | hdesc
    · exact Or.inl (heq ▸ hb)
    · have := List.mem_filter.mp hdesc
      exact Or.inr ⟨b, hb, this.1, this.2⟩
  · rintro (hp | ⟨b, hb, hcat, hcont⟩)
    · exact ⟨p, hp, List.mem_cons_self _ _⟩
    · exact ⟨b, hb, List.mem_cons_of_mem _ (List.mem_filter.mpr ⟨hcat, hcont⟩)⟩

/-- In-place update of the first list entry with the given id (the JS
`find`-then-mutate pattern touches only the first match). -/
def updateFirst (l : List Pokemon) (id : Nat) (g : Pokemon → Pokemon) :
    List Pokemon :=
  match l with
  | [] => []
  | p :: ps => if p.id = id then g p :: ps else p :: updateFirst ps id g

/-- Toggle of the first variant with the given type inside a variant list. -/
def toggleVariantFirst (vs : List Variant) (vt : VType) : List Variant :=
  match vs with
  | [] => []
  | v :: rest =>
      if v.type = vt then { v with caught := !v.caught } :: rest
      else v :: toggleVariantFirst rest vt

/-- Function `toggleCaught` (script.js lines 536-556): find the entity by id, then its
variant by type, toggle that variant's caught flag and save; when either
lookup fails, nothing happens.  The boolean result records whether
`saveProgress` was called. -/
def toggleCaught (id : Nat) (vt : VType) (l : List Pokemon) :
    List Pokemon × Bool :=
  match l.find? (fun p => p.id == id) with
  | none => (l, false)
  | some p =>
      match p.variants.find? (fun v => v.type == vt) with
      | none => (l, false)
      | some _ =>
          (updateFirst l id (fun q => { q with variants := toggleVariantFirst q.variants vt }),
            true)

/-- Claim **C10** — `toggleCaught` with an id matching no entity, or a variant type
absent from the matched entity's variant list, returns the catalogue
unchanged and performs no save. -/
theorem toggleCaught_noop (id : Nat) (vt : VType) (l : List Pokemon)
    (h : (∀ p ∈ l, p.id ≠ id) ∨
      ∃ p, l.find? (fun q => q.id == id) = some p ∧ ∀ v ∈ p.variants, v.type ≠ vt) :
    toggleCaught id vt l = (l, false) := by
  rcases h with hnone | ⟨p, hfind, hvars⟩
  · have : l.find? (fun p => p.id == id) = none := by
      rw [List.find?_eq_none]
      intro p hp
      simpa using hnone p hp
    simp [toggleCaught, this]
  · have hv : p.variants.find? (fun v => v.type == vt) = none := by
      rw [List.find?_eq_none]
      intro v hv
      simpa using hvars v hv
    simp [toggleCaught, hfind, hv]

/-- A one-entity catalogue for instantiating `toggleCaught_noop`: the entity
has id 1 and only a Normal variant. -/
def soloCatalogue : List Pokemon :=
  [{ id := 1, name := "Solo", rarity := .common, previousForms := [],
     locations := [], variants := [⟨.normal, false⟩] }]

theorem toggleCaught_noop_witness :
    ((∀ p ∈ soloCatalogue, p.id ≠ 2) ∨
      ∃ p, soloCatalogue.find? (fun q => q.id == 2) = some p ∧
        ∀ v ∈ p.variants, v.type ≠ VType.shiny) ∧
    toggleCaught 2 VType.shiny soloCatalogue = (soloCatalogue, false) :=
  ⟨by decide, toggleCaught_noop 2 VType.shiny soloCatalogue (by decide)⟩

/-- Variant modifiers for Common-classified encounters (the
`commonModifiers` table of `calculateProbability`). -/
def commonModifier : VType → ℚ
  | .normal => 92 / 100
  | .shiny => 1 / 100
  | .dark => 2 / 100
  | .mystic => 2 / 100
  | .metallic => 2 / 100
  | .shadow => 1 / 100

/-- Variant modifiers for non-Common-classified encounters (the
`rareModifiers` table of `calculateProbability`). -/
def rareModifier : VType → ℚ
  | .normal => 6 / 10
  | .shiny => 5 / 100
  | .dark => 1 / 10
  | .mystic => 1 / 10
  | .metallic => 1 / 10
  | .shadow => 5 / 100

/-- Entities with at least one uncaught variant (the `uncaughtPokemon`
filter of `calculateProbability`, script.js lines 895-897). -/
def uncaughtPokemon (l : List Pokemon) : List Pokemon :=
  l.filter (fun p => p.variants.any (fun v => !v.caught))

/-- Function `totalRares` (script.js lines 909-911): entities of declared rarity Rare
plus evolved entities that pass the active filters. -/
def totalRares (f : FilterState) (l : List Pokemon) : Nat :=
  (l.filter (fun p =>
    p.rarity == Rarity.rare || (!p.previousForms.isEmpty && tripleFilter f p))).length

/-- Function `totalCommons` (script.js lines 913-914): base-form entities of declared
rarity Common. -/
def totalCommons (l : List Pokemon) : Nat :=
  (l.filter (fun p => p.rarity == Rarity.common && p.previousForms.isEmpty)).length

/-- The adjusted Common probability (script.js lines 906-921): 1 minus the
Rare mass when rares are present, the Legendary mass when a Legendary is
present, and the Ultra Beast mass when an Ultra Beast is present. -/
def adjustedCommonProb (f : FilterState) (l : List Pokemon) : ℚ :=
  (1 - (if 0 < totalRares f l then 5 / 1000 else 0)) -
    (if l.any (fun p => p.rarity == Rarity.legendary) then 1 / 1000 else 0) -
    (if l.any (fun p => p.rarity == Rarity.ultraBeast) then 1 / 10000 else 0)

/-- The encounter rarity of an entity (script.js line 929): an evolved
Common counts as Rare, everything else keeps its declared rarity. -/
def encounterRarity (p : Pokemon) : Rarity :=
  if p.rarity = Rarity.common ∧ ¬p.previousForms.isEmpty then Rarity.rare
  else p.rarity

/-- The `rarityProbabilities` table after the Common adjustment. -/
def rarityProb (f : FilterState) (l : List Pokemon) : Rarity → ℚ
  | .common => adjustedCommonProb f l
  | .rare => 5 / 1000
  | .legendary => 1 / 1000
  | .ultraBeast => 1 / 10000

/-- Per-entity probability after the per-category normalization (script.js
lines 931-938): divide by the Common count for Common-classified entities
when that count is positive, by the Rare count for Rare-classified entities
when that count is positive, and skip the division otherwise. -/
def pokemonProbability (f : FilterState) (l : List Pokemon) (p : Pokemon) : ℚ :=
  if encounterRarity p = Rarity.common ∧ 0 < totalCommons l then
    rarityProb f l (encounterRarity p) / (totalCommons l : ℚ)
  else if encounterRarity p = Rarity.rare ∧ 0 < totalRares f l then
    rarityProb f l (encounterRarity p) / (totalRares f l : ℚ)
  else
    rarityProb f l (encounterRarity p)

/-- The modifier table selected for an entity (script.js line 941):
Common-classified entities use the common table, every other classification
the rare table. -/
def selectedModifier (p : Pokemon) (t : VType) : ℚ :=
  if encounterRarity p = Rarity.common then commonModifier t else rareModifier t

/-- The summed contribution of one uncaught entity (script.js lines
944-948): entity probability times variant modifier, over its uncaught
variants. -/
def pokemonContribution (f : FilterState) (l : List Pokemon) (p : Pokemon) : ℚ :=
  ((p.variants.filter (fun v => !v.caught)).map
    (fun v => pokemonProbability f l p * selectedModifier p v.type)).sum

/-- The accumulated `routeProbability` sum before the final reciprocal. -/
def routeSum (f : FilterState) (l : List Pokemon) : ℚ :=
  ((uncaughtPokemon l).map (pokemonContribution f l)).sum

/-- Model of `Math.round`: floor of the value plus one half. -/
def mathRound (q : ℚ) : ℤ :=
  ⌊q + 1 / 2⌋

/-- Function `calculateProbability` (script.js lines 865-955): absent when nothing is
uncaught, otherwise the rounded reciprocal of the accumulated sum. -/
def calculateProbability (f : FilterState) (l : List Pokemon) : Option ℤ :=
  if (uncaughtPokemon l).isEmpty then none
  else some (mathRound (1 / routeSum f l))

/-- Claim **C4** — when every variant of every candidate entity is caught, the
probability computation returns absent (the source's bare `return`), not a
number. -/
theorem calculateProbability_all_caught (f : FilterState) (l : List Pokemon)
    (h : ∀ p ∈ l, ∀ v ∈ p.variants, v.caught = true) :
    calculateProbability f l = none := by
  have hempty : uncaughtPokemon l = [] := by
    rw [uncaughtPokemon, List.filter_eq_nil_iff]
    intro p hp
    simp only [Bool.not_eq_true, List.any_eq_true, not_exists, not_and]
    intro v hv
    simp [h p hp v hv]
  simp [calculateProbability, hempty]

/-- A fully caught one-entity catalogue for instantiating
`calculateProbability_all_caught`. -/
def caughtCatalogue : List Pokemon :=
  [{ id := 1, name := "Done", rarity := .common, previousForms := [],
     locations := [⟨"Area 1", "Day", "Land"⟩],
     variants := [⟨.normal, true⟩, ⟨.shiny, true⟩] }]

def areaFilters : FilterState :=
  { location := "Area 1", time := "Day", type := "Land", variant := "" }

theorem calculateProbability_all_caught_witness :
    (∀ p ∈ caughtCatalogue, ∀ v ∈ p.variants, v.caught = true) ∧
    calculateProbability areaFilters caughtCatalogue = none :=
  ⟨by decide, calculateProbability_all_caught areaFilters caughtCatalogue (by decide)⟩

/-- The single uncaught base-form Common entity of the C5 scenario, alone in
its area with one Normal variant. -/
def soloCommon : Pokemon :=
  { id := 1, name := "Solo", rarity := .common, previousForms := [],
    locations := [⟨"Area 1", "Day", "Land"⟩],
    variants := [⟨.normal, false⟩] }

/-- Claim **C5** — on the one-entity scenario the engine computes `totalRares = 0`,
`totalCommons = 1`, an unadjusted Common probability of 1, a per-entity
probability of 1, a summed route probability of `0.92`, and the final
result `round(1 / 0.92) = 1`. -/
theorem calculateProbability_scenario :
    totalRares areaFilters [soloCommon] = 0 ∧
    totalCommons [soloCommon] = 1 ∧
    adjustedCommonProb areaFilters [soloCommon] = 1 ∧
    pokemonProbability areaFilters [soloCommon] soloCommon = 1 ∧
    routeSum areaFilters [soloCommon] = 92 / 100 ∧
    calculateProbability areaFilters [soloCommon] = some 1 := by
  have h1 : totalRares areaFilters [soloCommon] = 0 := by decide
  have h2 : totalCommons [soloCommon] = 1 := by decide
  have ha : ([soloCommon].any (fun p => p.rarity == Rarity.legendary)) = false := by
    decide
  have hb : ([soloCommon].any (fun p => p.rarity == Rarity.ultraBeast)) = false := by
    decide
  have h3 : adjustedCommonProb areaFilters [soloCommon] = 1 := by
    rw [adjustedCommonProb, h1, ha, hb]
    norm_num
  have he : encounterRarity soloCommon = Rarity.common := by decide
  have h4 : pokemonProbability areaFilters [soloCommon] soloCommon = 1 := by
    rw [pokemonProbability, he, h2]
    rw [if_pos ⟨rfl, Nat.zero_lt_one⟩]
    rw [rarityProb, h3]
    norm_num
  have hu : uncaughtPokemon [soloCommon] = [soloCommon] := by decide
  have hm : selectedModifier soloCommon VType.normal = 92 / 100 := by
    rw [selectedModifier, if_pos he, commonModifier]
  have hvf : soloCommon.variants.filter (fun v => !v.caught) =
      [⟨VType.normal, false⟩] := by decide
  have h5 : routeSum areaFilters [soloCommon] = 92 / 100 := by
    rw [routeSum, hu, List.map_cons, List.map_nil, List.sum_cons, List.sum_nil,
      add_zero, pokemonContribution, hvf, List.map_cons, List.map_nil,
      List.sum_cons, List.sum_nil, add_zero, h4]
    show 1 * selectedModifier soloCommon VType.normal = 92 / 100
    rw [hm, one_mul]
  have hne : (uncaughtPokemon [soloCommon]).isEmpty = false := by decide
  have h6 : calculateProbability areaFilters [soloCommon] = some 1 := by
    rw [calculateProbability, hne]
    simp only [Bool.false_eq_true, if_false]
    rw [h5, mathRound]
    norm_num
  exact ⟨h1, h2, h3, h4, h5, h6⟩

/-- Division that fails instead of being taken on a zero denominator, used
to instrument the two normalization divisions of `calculateProbability`. -/
def checkedDiv (a b : ℚ) : Except Unit ℚ :=
  if b = 0 then Except.error () else Except.ok (a / b)

/-- Function `pokemonProbability` with its two `/=` steps replaced by `checkedDiv`,
keeping the source's guards (`totalCommons > 0`, `totalRares > 0`) exactly. -/
def pokemonProbabilityChecked (f : FilterState) (l : List Pokemon)
    (p : Pokemon) : Except Unit ℚ :=
  if encounterRarity p = Rarity.common ∧ 0 < totalCommons l then
    checkedDiv (rarityProb f l (encounterRarity p)) ((totalCommons l : ℚ))
  else if encounterRarity p = Rarity.rare ∧ 0 < totalRares f l then
    checkedDiv (rarityProb f l (encounterRarity p)) ((totalRares f l : ℚ))
  else
    Except.ok (rarityProb f l (encounterRarity p))

/-- Function `pokemonContribution` over the checked per-entity probability. -/
def pokemonContributionChecked (f : FilterState) (l : List Pokemon)
    (p : Pokemon) : Except Unit ℚ := do
  let pp ← pokemonProbabilityChecked f l p
  pure (((p.variants.filter (fun v => !v.caught)).map
    (fun v => pp * selectedModifier p v.type)).sum)

/-- The accumulated route sum over checked contributions. -/
def routeSumChecked (f : FilterState) (l : List Pokemon) : Except Unit ℚ :=
  (uncaughtPokemon l).foldlM
    (fun acc p => do
      let c ← pokemonContributionChecked f l p
      pure (acc + c))
    (0 : ℚ)

/-- Function `calculateProbability` with the two normalization divisions checked. -/
def calculateProbabilityChecked (f : FilterState) (l : List Pokemon) :
    Except Unit (Option ℤ) :=
  if (uncaughtPokemon l).isEmpty then Except.ok none
  else do
    let s ← routeSumChecked f l
    pure (some (mathRound (1 / s)))

theorem pokemonProbabilityChecked_ok (f : FilterState) (l : List Pokemon)
    (p : Pokemon) :
    pokemonProbabilityChecked f l p = Except.ok (pokemonProbability f l p) := by
  unfold pokemonProbabilityChecked pokemonProbability
  by_cases hc : encounterRarity p = Rarity.common ∧ 0 < totalCommons l
  · rw [if_pos hc, if_pos hc, checkedDiv,
      if_neg (by exact_mod_cast Nat.pos_iff_ne_zero.mp hc.2)]
  · rw [if_neg hc, if_neg hc]
    by_cases hr : encounterRarity p = Rarity.rare ∧ 0 < totalRares f l
    · rw [if_pos hr, if_pos hr, checkedDiv,
        if_neg (by exact_mod_cast Nat.pos_iff_ne_zero.mp hr.2)]
    · rw [if_neg hr, if_neg hr]

theorem pokemonContributionChecked_ok (f : FilterState) (l : List Pokemon)
    (p : Pokemon) :
    pokemonContributionChecked f l p =
      Except.ok (pokemonContribution f l p) := by
  rw [pokemonContributionChecked, pokemonProbabilityChecked_ok]
  rfl

theorem routeSumChecked_go (f : FilterState) (l : List Pokemon)
    (ps : List Pokemon) (acc : ℚ) :
    ps.foldlM
        (fun acc p => do
          let c ← pokemonContributionChecked f l p
          pure (acc + c))
        acc =
      Except.ok (ps.foldl (fun acc p => acc + pokemonContribution f l p) acc) := by
  induction ps generalizing acc with
  | nil => rfl
  | cons p rest ih =>
      rw [List.foldlM_cons, pokemonContributionChecked_ok]
      simpa using ih (acc + pokemonContribution f l p)

theorem foldl_add_map_sum (f : FilterState) (l : List Pokemon)
    (ps : List Pokemon) (acc : ℚ) :
    ps.foldl (fun acc p => acc + pokemonContribution f l p) acc =
      acc + (ps.map (pokemonContribution f l)).sum := by
  induction ps generalizing acc with
  | nil => simp
  | cons p rest ih =>
      rw [List.foldl_cons, ih, List.map_cons, List.sum_cons]
      ring

theorem routeSumChecked_ok (f : FilterState) (l : List Pokemon) :
    routeSumChecked f l = Except.ok (routeSum f l) := by
  rw [routeSumChecked, routeSumChecked_go, foldl_add_map_sum, routeSum, zero_add]

/-- Claim **C9** — the per-category normalization steps never divide by zero: the
run of `calculateProbability` in which both normalization divisions fail on
a zero denominator succeeds on every input and returns exactly the
unchecked result, because each division is guarded by positivity of its
category count. -/
theorem calculateProbability_no_div_by_zero (f : FilterState)
    (l : List Pokemon) :
    calculateProbabilityChecked f l = Except.ok (calculateProbability f l) := by
  unfold calculateProbabilityChecked calculateProbability
  by_cases hempty : (uncaughtPokemon l).isEmpty = true
  · rw [if_pos hempty, if_pos hempty]
  · rw [if_neg hempty, if_neg hempty, routeSumChecked_ok]
    rfl

/-- One entry of the serialized save payload: id plus caught variants
(`exportPokedexData` keeps only these two fields). -/
structure ExportEntry where
  id : Nat
  variants : List Variant
deriving DecidableEq, Repr

/-- Function `exportPokedexData` (script.js lines 312-332): entities having at least
one caught variant, each reduced to its id and its caught variants. -/
def exportPokedexData (l : List Pokemon) : List ExportEntry :=
  (l.filter (fun p => p.variants.any (fun v => v.caught))).map
    (fun p => { id := p.id, variants := p.variants.filter (fun v => v.caught) })

/-- The per-variant merge of `importPokedexData`: when the imported entry
holds a variant of the same type, take its caught flag, otherwise keep the
resident variant (script.js lines 277-286; the `includes` test and the
inner `find` collapse to one `find?`). -/
def mergeVariant (importedVars : List Variant) (v : Variant) : Variant :=
  match importedVars.find? (fun w => w.type == v.type) with
  | some w => { v with caught := w.caught }
  | none => v

/-- The per-entry merge of `importPokedexData` (script.js lines 269-288):
find the resident entity with the imported id (the JS `find` touches only
the first match) and rewrite its variant list. -/
def mergeEntry (e : ExportEntry) (l : List Pokemon) : List Pokemon :=
  updateFirst l e.id
    (fun p => { p with variants := p.variants.map (mergeVariant e.variants) })

/-- Function `importPokedexData` (script.js lines 243-301) after decoding: the
validation loop throws on any entry whose `id` is falsy — which rejects the
integer id 0, not only a missing field — leaving the resident catalogue
unmerged; otherwise every entry is merged in order.  (The companion
`!pokemon.variants` test can only fire on a missing field, which the model's
payload type cannot express.) -/
def importPokedexData (payload : List ExportEntry) (l : List Pokemon) :
    List Pokemon :=
  if payload.any (fun e => e.id == 0) then l
  else payload.foldl (fun acc e => mergeEntry e acc) l

def resetVariant (v : Variant) : Variant :=
  { v with caught := false }

def resetPokemon (p : Pokemon) : Pokemon :=
  { p with variants := p.variants.map resetVariant }

/-- A freshly loaded copy of the catalogue: every variant uncaught. -/
def resetCaught (l : List Pokemon) : List Pokemon :=
  l.map resetPokemon

/-- A catalogue whose single entity has the falsy id 0 and one caught
variant. -/
def zeroIdCatalogue : List Pokemon :=
  [{ id := 0, name := "Zero", rarity := .common, previousForms := [],
     locations := [], variants := [⟨.normal, true⟩] }]

/-- Claim **C3 counterexample** — exporting the caught state of a catalogue whose
entity has id 0 and importing it into the all-uncaught copy does not
restore the caught pair: the import validation rejects the payload (the JS
`!pokemon.id` truthiness test fires on the integer 0) and the merge never
runs, so the caught flag stays false. -/
theorem exportImport_roundTrip_fails :
    importPokedexData (exportPokedexData zeroIdCatalogue)
        (resetCaught zeroIdCatalogue) =
      resetCaught zeroIdCatalogue ∧
    importPokedexData (exportPokedexData zeroIdCatalogue)
        (resetCaught zeroIdCatalogue) ≠ zeroIdCatalogue := by
  refine ⟨by decide, by decide⟩

theorem export_id_mem (l : List Pokemon) (e : ExportEntry)
    (he : e ∈ exportPokedexData l) : ∃ p ∈ l, e.id = p.id := by
  obtain ⟨p, hp, rfl⟩ := List.mem_map.mp he
  exact ⟨p, (List.mem_filter.mp hp).1, rfl⟩

theorem mergeAll_skip (es : List ExportEntry) (q : Pokemon)
    (acc : List Pokemon) (h : ∀ e ∈ es, e.id ≠ q.id) :
    es.foldl (fun acc e => mergeEntry e acc) (q :: acc) =
      q :: es.foldl (fun acc e => mergeEntry e acc) acc := by
  induction es generalizing acc with
  | nil => rfl
  | cons e rest ih =>
      have hne : ¬q.id = e.id := fun hq => h e (List.mem_cons_self e rest) (hq ▸ rfl)
      rw [List.foldl_cons, List.foldl_cons]
      have hstep : mergeEntry e (q :: acc) = q :: mergeEntry e acc := by
        simp only [mergeEntry, updateFirst, if_neg hne]
      rw [hstep]
      exact ih _ (fun e' he' => h e' (List.mem_cons_of_mem e he'))

theorem find_caught_of_mem (vs : List Variant)
    (hpw : vs.Pairwise (fun a b => a.type ≠ b.type)) (v : Variant)
    (hv : v ∈ vs) (hc : v.caught = true) :
    (vs.filter (fun w => w.caught)).find? (fun w => w.type == v.type) = some v := by
  induction vs with
  | nil => cases hv
  | cons a rest ih =>
      rw [List.pairwise_cons] at hpw
      rcases List.mem_cons.mp hv with rfl | hvrest
      · rw [List.filter_cons, if_pos (by simpa using hc)]
        rw [List.find?_cons, show (v.type == v.type) = true by simp]
      · have hna : a.type ≠ v.type := hpw.1 v hvrest
        by_cases hac : a.caught = true
        · rw [List.filter_cons, if_pos (by simpa using hac)]
          rw [List.find?_cons, show (a.type == v.type) = false by simpa using hna]
          exact ih hpw.2 hvrest
        · rw [List.filter_cons, if_neg (by simpa using hac)]
          exact ih hpw.2 hvrest

theorem find_caught_of_uncaught (vs : List Variant)
    (hpw : vs.Pairwise (fun a b => a.type ≠ b.type)) (v : Variant)
    (hv : v ∈ vs) (hc : v.caught = false) :
    (vs.filter (fun w => w.caught)).find? (fun w => w.type == v.type) = none := by
  rw [List.find?_eq_none]
  intro w hw
  have hwmem := List.mem_filter.mp hw
  have hwne : w ≠ v := fun hwv => by
    rw [hwv] at hwmem
    rw [hc] at hwmem
    exact Bool.false_ne_true hwmem.2
  have hsymm : Symmetric (fun a b : Variant => a.type ≠ b.type) :=
    fun a b hab => fun h => hab h.symm
  have := List.Pairwise.forall hsymm hpw hwmem.1 hv hwne
  simpa using this

theorem mergeVariants_reset (vs : List Variant)
    (hpw : vs.Pairwise (fun a b => a.type ≠ b.type)) :
    (vs.map resetVariant).map (mergeVariant (vs.filter (fun v => v.caught))) = vs := by
  rw [List.map_map]
  have hpt : ∀ v ∈ vs,
      (mergeVariant (vs.filter (fun v => v.caught)) ∘ resetVariant) v = v := by
    intro v hv
    show mergeVariant (vs.filter (fun v => v.caught)) (resetVariant v) = v
    have htype : (resetVariant v).type = v.type := rfl
    by_cases hc : v.caught = true
    · rw [mergeVariant, htype, find_caught_of_mem vs hpw v hv hc]
    · have hcf : v.caught = false := Bool.not_eq_true _ |>.mp hc
      rw [mergeVariant, htype, find_caught_of_uncaught vs hpw v hv hcf]
      rw [show resetVariant v = ⟨v.type, false⟩ from rfl, ← hcf]
  rw [List.map_congr_left hpt]
  simp

theorem resetPokemon_of_none_caught (p : Pokemon)
    (h : p.variants.any (fun v => v.caught) = false) : resetPokemon p = p := by
  have hall : ∀ v ∈ p.variants, v.caught = false := by
    intro v hv
    by_contra hcv
    have : p.variants.any (fun v => v.caught) = true :=
      List.any_eq_true.mpr ⟨v, hv, by simpa using Bool.not_eq_false _ |>.mp hcv⟩
    rw [h] at this
    exact Bool.false_ne_true this
  have hmap : p.variants.map resetVariant = p.variants := by
    have : ∀ v ∈ p.variants, resetVariant v = v := by
      intro v hv
      rw [show resetVariant v = ⟨v.type, false⟩ from rfl, ← hall _ hv]
    rw [List.map_congr_left this]
    simp
  cases p
  simp only [resetPokemon] at hmap ⊢
  simp_all

theorem mergeAll_reset (l : List Pokemon)
    (hids : l.Pairwise (fun p q => p.id ≠ q.id))
    (htypes : ∀ p ∈ l, p.variants.Pairwise (fun v w => v.type ≠ w.type)) :
    (exportPokedexData l).foldl (fun acc e => mergeEntry e acc)
        (resetCaught l) = l := by
  induction l with
  | nil => rfl
  | cons p ps ih =>
      rw [List.pairwise_cons] at hids
      obtain ⟨hid, hids⟩ := hids
      have htp := htypes p (List.mem_cons_self p ps)
      have htps : ∀ q ∈ ps, q.variants.Pairwise (fun v w => v.type ≠ w.type) :=
        fun q hq => htypes q (List.mem_cons_of_mem p hq)
      have hskip : ∀ e ∈ exportPokedexData ps, e.id ≠ p.id := by
        intro e he
        obtain ⟨q, hq, heq⟩ := export_id_mem ps e he
        rw [heq]
        exact (hid q hq).symm
      have hreset : resetCaught (p :: ps) = resetPokemon p :: resetCaught ps := rfl
      by_cases hc : p.variants.any (fun v => v.caught) = true
      · have hexp : exportPokedexData (p :: ps) =
            ⟨p.id, p.variants.filter (fun v => v.caught)⟩ ::
              exportPokedexData ps := by
          simp [exportPokedexData, List.filter_cons, hc]
        rw [hexp, hreset, List.foldl_cons]
        have hvars : List.map
            (mergeVariant (p.variants.filter (fun v => v.caught)))
            (resetPokemon p).variants = p.variants :=
          mergeVariants_reset p.variants htp
        have hmerge :
            mergeEntry ⟨p.id, p.variants.filter (fun v => v.caught)⟩
              (resetPokemon p :: resetCaught ps) = p :: resetCaught ps := by
          simp only [mergeEntry, updateFirst]
          rw [if_pos (show (resetPokemon p).id = p.id from rfl)]
          rw [hvars]
          simp [resetPokemon]
        rw [hmerge, mergeAll_skip _ _ _ hskip, ih hids htps]
      · have hcf : p.variants.any (fun v => v.caught) = false :=
          Bool.not_eq_true _ |>.mp hc
        have hexp : exportPokedexData (p :: ps) = exportPokedexData ps := by
          simp [exportPokedexData, List.filter_cons, hcf]
        rw [hexp, hreset, resetPokemon_of_none_caught p hcf,
          mergeAll_skip _ _ _ hskip, ih hids htps]

/-- Claim **C3 (amended)** — provided every entity id is nonzero (so the JS
truthiness validation cannot fire) and the catalogue satisfies the data
model's uniqueness invariants (pairwise distinct ids, pairwise distinct
variant types within an entity), exporting the caught state and importing
it into the freshly loaded all-uncaught copy restores the catalogue
exactly: every originally caught pair is caught again and no other caught
flag changes. -/
theorem exportImport_roundTrip (l : List Pokemon)
    (hids : l.Pairwise (fun p q => p.id ≠ q.id))
    (htypes : ∀ p ∈ l, p.variants.Pairwise (fun v w => v.type ≠ w.type))
    (hnz : ∀ p ∈ l, p.id ≠ 0) :
    importPokedexData (exportPokedexData l) (resetCaught l) = l := by
  have hvalid : (exportPokedexData l).any (fun e => e.id == 0) = false := by
    rw [Bool.eq_false_iff]
    intro hany
    obtain ⟨e, he, hid⟩ := List.any_eq_true.mp hany
    obtain ⟨p, hp, heq⟩ := export_id_mem l e he
    exact hnz p hp (heq ▸ (by simpa using hid))
  rw [importPokedexData, hvalid]
  simp only [Bool.false_eq_true, if_false]
  exact mergeAll_reset l hids htypes

/-- A two-entity catalogue with mixed caught state for instantiating
`exportImport_roundTrip`. -/
def rtCatalogue : List Pokemon :=
  [{ id := 1, name := "One", rarity := .common, previousForms := [],
     locations := [⟨"Area 1", "Day", "Land"⟩],
     variants := [⟨.normal, true⟩, ⟨.shiny, false⟩] },
   { id := 2, name := "Two", rarity := .rare, previousForms := [1],
     locations := [⟨"Area 1", "Night", "Water"⟩],
     variants := [⟨.normal, false⟩] }]

theorem exportImport_roundTrip_witness :
    (rtCatalogue.Pairwise (fun p q => p.id ≠ q.id) ∧
      (∀ p ∈ rtCatalogue, p.variants.Pairwise (fun v w => v.type ≠ w.type)) ∧
      (∀ p ∈ rtCatalogue, p.id ≠ 0)) ∧
    importPokedexData (exportPokedexData rtCatalogue) (resetCaught rtCatalogue) =
      rtCatalogue :=
  ⟨⟨by decide, by decide, by decide⟩,
    exportImport_roundTrip rtCatalogue (by decide) (by decide) (by decide)⟩

end SeasonalTool
